import Mathlib

/-!
Verification of the SignFX metrics engine (`mcp_signfx_tool.py`).

The engine is embedded shallowly:
* `SignFXMetrics` mirrors the dataclass of the same name; numeric fields are
  modelled as rationals (the quality-score pipeline and the store use only
  field arithmetic, `min`, `max`, `abs` and rounding).
* the signal-to-noise computation `calculate_snr` uses a base-10 logarithm and
  IEEE infinity, so it is modelled separately over `ℝ` with values in
  `Option EReal` (`none` models the `math domain error` exception raised by
  `math.log10` on a nonpositive argument, `some ⊤` models `float(inf)`).
-/

namespace SignFX

/-- Mirror of the `SignFXMetrics` dataclass: one measurement sample together
with its derived fields. -/
structure SignFXMetrics where
  timestamp : ℚ
  signal_strength : ℚ
  noise_level : ℚ
  signal_to_noise_ratio : ℚ
  frequency : ℚ
  amplitude : ℚ
  phase : ℚ
  distortion : ℚ
  latency : ℚ
  throughput : ℚ
  error_rate : ℚ
  quality_score : ℚ
deriving DecidableEq

/-- Python `round(x, 2)`: round to two decimal places. -/
def round2 (x : ℚ) : ℚ := (round (x * 100) : ℚ) / 100

/-- Mirror of `SignFXMetricsCalculator.calculate_quality_score`
(src/mcp_signfx_tool.py lines 63-92). -/
def calculate_quality_score (m : SignFXMetrics) : ℚ :=
  let snr_score := min 100 (max 0 ((m.signal_to_noise_ratio + 20) * (5/2)))
  let distortion_score := max 0 (100 - m.distortion * 100)
  let latency_score := max 0 (100 - m.latency * 10)
  let error_rate_score := max 0 (100 - m.error_rate * 1000)
  let throughput_score := min 100 (m.throughput * 10)
  let amplitude_score := min 100 (|m.amplitude| * 50)
  round2 (snr_score * (3/10) +
    distortion_score * (2/10) +
    latency_score * (15/100) +
    error_rate_score * (15/100) +
    throughput_score * (1/10) +
    amplitude_score * (1/10))

/-- The quality-score formula exactly as the specification states it in the
table of section 4.1: weight times sub-score, summed, rounded to 2 places,
with no clamp on the final weighted sum. -/
def qualityScoreSpec (m : SignFXMetrics) : ℚ :=
  round2 ((3/10) * min 100 (max 0 ((m.signal_to_noise_ratio + 20) * (5/2))) +
    (2/10) * max 0 (100 - m.distortion * 100) +
    (15/100) * max 0 (100 - m.latency * 10) +
    (15/100) * max 0 (100 - m.error_rate * 1000) +
    (1/10) * min 100 (m.throughput * 10) +
    (1/10) * min 100 (|m.amplitude| * 50))

/-- C1: for every metrics record, `calculate_quality_score` returns exactly the
weighted sum of the six sub-scores of the section 4.1 table, with the exact
scaling constants and weights, rounded to 2 decimal places and with no
additional clamp on the final weighted sum. -/
theorem quality_score_matches_spec (m : SignFXMetrics) :
    calculate_quality_score m = qualityScoreSpec m := by
  unfold calculate_quality_score qualityScoreSpec
  ring_nf

/-- The in-place update performed at the top of `add_metrics`
(line 96: `metrics.quality_score = self.calculate_quality_score(metrics)`). -/
def stamp (m : SignFXMetrics) : SignFXMetrics :=
  { m with quality_score := calculate_quality_score m }

/-- Mirror of `SignFXMetricsCalculator.add_metrics`
(src/mcp_signfx_tool.py lines 94-101): compute the quality score, append, and
keep only the last 1000 entries (`self.metrics_history[-1000:]`). -/
def add_metrics (hist : List SignFXMetrics) (m : SignFXMetrics) :
    List SignFXMetrics :=
  let h := hist ++ [stamp m]
  if 1000 < h.length then h.drop (h.length - 1000) else h

/-- Keep the last 1000 elements of a list (Python `l[-1000:]`). -/
def capTake (l : List SignFXMetrics) : List SignFXMetrics :=
  l.drop (l.length - 1000)

theorem add_metrics_eq_capTake (hist : List SignFXMetrics)
    (m : SignFXMetrics) : add_metrics hist m = capTake (hist ++ [stamp m]) := by
  show (if 1000 < (hist ++ [stamp m]).length then
      (hist ++ [stamp m]).drop ((hist ++ [stamp m]).length - 1000)
    else hist ++ [stamp m]) = capTake (hist ++ [stamp m])
  unfold capTake
  split
  · rfl
  · rename_i h
    rw [Nat.sub_eq_zero_of_le (by omega), List.drop_zero]

theorem capTake_append_capTake (l t : List SignFXMetrics)
    (ht : t.length ≤ 1000) : capTake (capTake l ++ t) = capTake (l ++ t) := by
  unfold capTake
  simp only [List.length_append, List.length_drop]
  have h1 : l.length - (l.length - 1000) + t.length - 1000 ≤
      (l.drop (l.length - 1000)).length := by
    rw [List.length_drop]; omega
  have h2 : l.length + t.length - 1000 ≤ l.length := by omega
  rw [List.drop_append_of_le_length h1, List.drop_append_of_le_length h2,
    List.drop_drop]
  have h3 : l.length - 1000 + (l.length - (l.length - 1000) + t.length - 1000) =
      l.length + t.length - 1000 := by omega
  rw [h3]

theorem foldl_add_metrics_eq (ms : List SignFXMetrics)
    (l : List SignFXMetrics) :
    ms.foldl add_metrics (capTake l) = capTake (l ++ ms.map stamp) := by
  induction ms generalizing l with
  | nil => simp
  | cons m ms ih =>
      rw [List.foldl_cons, add_metrics_eq_capTake,
        capTake_append_capTake _ _ (by simp), ih (l ++ [stamp m])]
      simp

theorem capTake_nil : capTake [] = [] := rfl

/-- C2: after any sequence of ingest operations starting from the empty store,
the store length never exceeds the capacity 1000; after ingesting N > 1000
samples, the length is exactly 1000 and the retained records are exactly the
last 1000 ingested (as stored, i.e. with their quality score stamped at
ingestion), in their original insertion order. -/
theorem store_bounded_fifo (ms : List SignFXMetrics) :
    (ms.foldl add_metrics []).length ≤ 1000 ∧
      (1000 < ms.length →
        (ms.foldl add_metrics []).length = 1000 ∧
          ms.foldl add_metrics [] =
            (ms.map stamp).drop (ms.length - 1000)) := by
  have h : ms.foldl add_metrics [] = capTake (ms.map stamp) := by
    have := foldl_add_metrics_eq ms []
    rwa [capTake_nil, List.nil_append] at this
  rw [h]
  unfold capTake
  rw [List.length_drop, List.length_map]
  exact ⟨by omega, fun hlen => ⟨by omega, rfl⟩⟩

/-- A concrete all-zero sample. -/
def zeroSample : SignFXMetrics := ⟨0, 0, 0, 0, 0, 0, 0, 0, 0, 0, 0, 0⟩

/-- Witness for C2: ingesting 1001 copies of a concrete sample leaves exactly
1000 records, the last 1000 ingested. -/
theorem store_bounded_fifo_witness :
    ((List.replicate 1001 zeroSample).foldl add_metrics []).length = 1000 ∧
      (List.replicate 1001 zeroSample).foldl add_metrics [] =
        ((List.replicate 1001 zeroSample).map stamp).drop
          ((List.replicate 1001 zeroSample).length - 1000) :=
  (store_bounded_fifo (List.replicate 1001 zeroSample)).2
    (by rw [List.length_replicate]; omega)

theorem round2_mono {x y : ℚ} (h : x ≤ y) : round2 x ≤ round2 y := by
  unfold round2
  have hr : round (x * 100) ≤ round (y * 100) := by
    rw [round_eq, round_eq]
    exact Int.floor_mono (by linarith)
  have hc : ((round (x * 100) : ℤ) : ℚ) ≤ ((round (y * 100) : ℤ) : ℚ) :=
    Int.cast_le.mpr hr
  linarith

/-- C7 (amended): whenever distortion, latency and error rate are nonnegative,
the quality score is at most 100 regardless of the other fields, and it is
also at least 0 provided throughput is nonnegative as well.  (The claim as
stated is false: the throughput sub-score `min 100 (throughput * 10)` has no
lower clamp, so a negative throughput drives the score below 0.) -/
theorem quality_score_in_range (m : SignFXMetrics)
    (hd : 0 ≤ m.distortion) (hl : 0 ≤ m.latency) (he : 0 ≤ m.error_rate) :
    calculate_quality_score m ≤ 100 ∧
      (0 ≤ m.throughput → 0 ≤ calculate_quality_score m) := by
  have heq : calculate_quality_score m =
      round2 (min 100 (max 0 ((m.signal_to_noise_ratio + 20) * (5/2))) * (3/10) +
        max 0 (100 - m.distortion * 100) * (2/10) +
        max 0 (100 - m.latency * 10) * (15/100) +
        max 0 (100 - m.error_rate * 1000) * (15/100) +
        min 100 (m.throughput * 10) * (1/10) +
        min 100 (|m.amplitude| * 50) * (1/10)) := rfl
  have s1u : min 100 (max 0 ((m.signal_to_noise_ratio + 20) * (5/2))) ≤ 100 :=
    min_le_left _ _
  have s1l : (0:ℚ) ≤ min 100 (max 0 ((m.signal_to_noise_ratio + 20) * (5/2))) :=
    le_min (by norm_num) (le_max_left 0 _)
  have hd' : (0:ℚ) ≤ m.distortion * 100 := mul_nonneg hd (by norm_num)
  have s2u : max 0 (100 - m.distortion * 100) ≤ 100 :=
    max_le (by norm_num) (by linarith)
  have s2l : (0:ℚ) ≤ max 0 (100 - m.distortion * 100) := le_max_left 0 _
  have hl' : (0:ℚ) ≤ m.latency * 10 := mul_nonneg hl (by norm_num)
  have s3u : max 0 (100 - m.latency * 10) ≤ 100 :=
    max_le (by norm_num) (by linarith)
  have s3l : (0:ℚ) ≤ max 0 (100 - m.latency * 10) := le_max_left 0 _
  have he' : (0:ℚ) ≤ m.error_rate * 1000 := mul_nonneg he (by norm_num)
  have s4u : max 0 (100 - m.error_rate * 1000) ≤ 100 :=
    max_le (by norm_num) (by linarith)
  have s4l : (0:ℚ) ≤ max 0 (100 - m.error_rate * 1000) := le_max_left 0 _
  have s5u : min 100 (m.throughput * 10) ≤ 100 := min_le_left _ _
  have s6u : min 100 (|m.amplitude| * 50) ≤ 100 := min_le_left _ _
  have s6l : (0:ℚ) ≤ min 100 (|m.amplitude| * 50) :=
    le_min (by norm_num) (mul_nonneg (abs_nonneg _) (by norm_num))
  have h100 : round2 100 = 100 := by norm_num [round2]
  have h0 : round2 0 = 0 := by norm_num [round2]
  constructor
  · rw [heq]
    calc round2 _ ≤ round2 100 := round2_mono (by linarith)
      _ = 100 := h100
  · intro ht
    have s5l : (0:ℚ) ≤ min 100 (m.throughput * 10) :=
      le_min (by norm_num) (mul_nonneg ht (by norm_num))
    rw [heq]
    calc (0:ℚ) = round2 0 := h0.symm
      _ ≤ round2 _ := round2_mono (by linarith)

/-- A concrete sample with a large negative throughput and everything else
zero; its distortion, latency and error rate are nonnegative, yet its quality
score is negative. -/
def negThroughputSample : SignFXMetrics :=
  ⟨0, 0, 0, 0, 0, 0, 0, 0, 0, -1000, 0, 0⟩

/-- Counterexample for C7 as stated: a record with nonnegative distortion,
latency and error rate whose quality score is not in [0, 100] (it is -935,
driven by the unclamped negative throughput sub-score). -/
theorem quality_score_out_of_range_cex :
    0 ≤ negThroughputSample.distortion ∧
      0 ≤ negThroughputSample.latency ∧
      0 ≤ negThroughputSample.error_rate ∧
      ¬(0 ≤ calculate_quality_score negThroughputSample ∧
        calculate_quality_score negThroughputSample ≤ 100) := by
  have hscore : calculate_quality_score negThroughputSample = round2 (-935) := by
    norm_num [calculate_quality_score, negThroughputSample]
  have hr : round2 (-935 : ℚ) = -935 := by
    unfold round2
    have h : ((-935 : ℚ) * 100) = ((-93500 : ℤ) : ℚ) := by norm_num
    rw [h, round_intCast]
    norm_num
  refine ⟨by norm_num [negThroughputSample], by norm_num [negThroughputSample],
    by norm_num [negThroughputSample], ?_⟩
  rw [hscore, hr]
  norm_num

/-- Witness for C7 (amended): the all-zero sample satisfies every hypothesis
and its quality score lies in [0, 100]. -/
theorem quality_score_in_range_witness :
    calculate_quality_score zeroSample ≤ 100 ∧
      0 ≤ calculate_quality_score zeroSample :=
  ⟨(quality_score_in_range zeroSample (by decide) (by decide) (by decide)).1,
   (quality_score_in_range zeroSample (by decide) (by decide) (by decide)).2
     (by decide)⟩

/-- Arithmetic mean of a list of rationals (`statistics.mean`; the source only
ever calls it on nonempty lists). -/
def mean (l : List ℚ) : ℚ := l.sum / l.length

/-- Mirror of `SignFXMetricsCalculator.get_average_metrics`
(src/mcp_signfx_tool.py lines 103-127): filter the history to records whose
timestamp is at least `now` minus the window (minutes, hence `* 60` with time
modelled in seconds), return `none` on an empty history or empty filtered set,
otherwise a synthesized record of field means stamped with the query time. -/
def get_average_metrics (hist : List SignFXMetrics) (now window : ℚ) :
    Option SignFXMetrics :=
  if hist.isEmpty then none
  else
    let recent := hist.filter (fun m => now - window * 60 ≤ m.timestamp)
    if recent.isEmpty then none
    else some {
      timestamp := now
      signal_strength := mean (recent.map SignFXMetrics.signal_strength)
      noise_level := mean (recent.map SignFXMetrics.noise_level)
      signal_to_noise_ratio :=
        mean (recent.map SignFXMetrics.signal_to_noise_ratio)
      frequency := mean (recent.map SignFXMetrics.frequency)
      amplitude := mean (recent.map SignFXMetrics.amplitude)
      phase := mean (recent.map SignFXMetrics.phase)
      distortion := mean (recent.map SignFXMetrics.distortion)
      latency := mean (recent.map SignFXMetrics.latency)
      throughput := mean (recent.map SignFXMetrics.throughput)
      error_rate := mean (recent.map SignFXMetrics.error_rate)
      quality_score := mean (recent.map SignFXMetrics.quality_score) }

/-- The windowed average exactly as the specification states it: the result is
empty precisely when the filtered set is empty (including an empty store), and
otherwise every raw and derived field is the arithmetic mean of that field over
the filtered set, with the timestamp set to the query time. -/
def windowedAverageSpec (hist : List SignFXMetrics) (now window : ℚ) :
    Option SignFXMetrics :=
  let recent := hist.filter (fun m => now - window * 60 ≤ m.timestamp)
  if recent.isEmpty then none
  else some {
    timestamp := now
    signal_strength := mean (recent.map SignFXMetrics.signal_strength)
    noise_level := mean (recent.map SignFXMetrics.noise_level)
    signal_to_noise_ratio :=
      mean (recent.map SignFXMetrics.signal_to_noise_ratio)
    frequency := mean (recent.map SignFXMetrics.frequency)
    amplitude := mean (recent.map SignFXMetrics.amplitude)
    phase := mean (recent.map SignFXMetrics.phase)
    distortion := mean (recent.map SignFXMetrics.distortion)
    latency := mean (recent.map SignFXMetrics.latency)
    throughput := mean (recent.map SignFXMetrics.throughput)
    error_rate := mean (recent.map SignFXMetrics.error_rate)
    quality_score := mean (recent.map SignFXMetrics.quality_score) }

/-- C3: `get_average_metrics` returns the "no data" result exactly when the
filtered set is empty (including when the store is empty), and otherwise a
newly synthesized record in which every raw and derived field is the mean of
that field over the filtered set and whose timestamp is the query time. -/
theorem average_metrics_matches_spec (hist : List SignFXMetrics)
    (now window : ℚ) :
    get_average_metrics hist now window = windowedAverageSpec hist now window := by
  cases hist with
  | nil => rfl
  | cons a t =>
      unfold get_average_metrics windowedAverageSpec
      simp only [List.isEmpty_cons, Bool.false_eq_true, if_false]

/-- Minimum of a list of rationals (Python `min`; the `[]` branch is
unreachable in the source, which only calls it on nonempty lists). -/
def listMin : List ℚ → ℚ
  | [] => 0
  | x :: xs => xs.foldl min x

/-- Maximum of a list of rationals (Python `max`; the `[]` branch is
unreachable in the source, which only calls it on nonempty lists). -/
def listMax : List ℚ → ℚ
  | [] => 0
  | x :: xs => xs.foldl max x

/-- Mirror of the summary dictionary built by
`SignFXMetricsCalculator.get_metrics_summary`. -/
structure MetricsSummary where
  total_measurements : ℕ
  recent_measurements : ℕ
  current_quality_score : ℚ
  average_quality_score : ℚ
  min_quality_score : ℚ
  max_quality_score : ℚ
  average_snr : ℚ
  average_latency : ℚ
  average_throughput : ℚ
  average_error_rate : ℚ
  last_updated : Option ℚ
deriving DecidableEq

/-- Mirror of `SignFXMetricsCalculator.get_metrics_summary`
(src/mcp_signfx_tool.py lines 129-148): `none` models the
`{"error": "No metrics data available"}` return on an empty store; otherwise
statistics over the last 100 entries (`self.metrics_history[-100:]`). -/
def get_metrics_summary (hist : List SignFXMetrics) : Option MetricsSummary :=
  if hist.isEmpty then none
  else
    let recent := hist.drop (hist.length - 100)
    some {
      total_measurements := hist.length
      recent_measurements := recent.length
      current_quality_score :=
        ((recent.getLast?).map SignFXMetrics.quality_score).getD 0
      average_quality_score := mean (recent.map SignFXMetrics.quality_score)
      min_quality_score := listMin (recent.map SignFXMetrics.quality_score)
      max_quality_score := listMax (recent.map SignFXMetrics.quality_score)
      average_snr := mean (recent.map SignFXMetrics.signal_to_noise_ratio)
      average_latency := mean (recent.map SignFXMetrics.latency)
      average_throughput := mean (recent.map SignFXMetrics.throughput)
      average_error_rate := mean (recent.map SignFXMetrics.error_rate)
      last_updated := (recent.getLast?).map SignFXMetrics.timestamp }

theorem foldl_min_le_init (a : ℚ) (l : List ℚ) : l.foldl min a ≤ a := by
  induction l generalizing a with
  | nil => exact le_refl a
  | cons b l ih => exact le_trans (ih (min a b)) (min_le_left a b)

theorem foldl_min_le_mem {x : ℚ} {l : List ℚ} (hx : x ∈ l) (a : ℚ) :
    l.foldl min a ≤ x := by
  induction l generalizing a with
  | nil => cases hx
  | cons b l ih =>
      rcases List.mem_cons.mp hx with h | h
      · subst h
        exact le_trans (foldl_min_le_init (min a x) l) (min_le_right a x)
      · exact ih h (min a b)

theorem listMin_le_mem {x : ℚ} {l : List ℚ} (hx : x ∈ l) : listMin l ≤ x := by
  cases l with
  | nil => cases hx
  | cons b l =>
      rcases List.mem_cons.mp hx with h | h
      · subst h
        exact foldl_min_le_init x l
      · exact foldl_min_le_mem h b

theorem le_foldl_max_init (a : ℚ) (l : List ℚ) : a ≤ l.foldl max a := by
  induction l generalizing a with
  | nil => exact le_refl a
  | cons b l ih => exact le_trans (le_max_left a b) (ih (max a b))

theorem mem_le_foldl_max {x : ℚ} {l : List ℚ} (hx : x ∈ l) (a : ℚ) :
    x ≤ l.foldl max a := by
  induction l generalizing a with
  | nil => cases hx
  | cons b l ih =>
      rcases List.mem_cons.mp hx with h | h
      · subst h
        exact le_trans (le_max_right a x) (le_foldl_max_init (max a x) l)
      · exact ih h (max a b)

theorem mem_le_listMax {x : ℚ} {l : List ℚ} (hx : x ∈ l) : x ≤ listMax l := by
  cases l with
  | nil => cases hx
  | cons b l =>
      rcases List.mem_cons.mp hx with h | h
      · subst h
        exact le_foldl_max_init x l
      · exact mem_le_foldl_max h b

theorem listMin_le_mean {l : List ℚ} (h : l ≠ []) : listMin l ≤ mean l := by
  have hlen : 0 < (l.length : ℚ) := by
    have := List.length_pos.mpr h
    exact_mod_cast this
  unfold mean
  rw [le_div_iff₀ hlen]
  have hsum : l.length • listMin l ≤ l.sum :=
    List.card_nsmul_le_sum l (listMin l) fun x hx => listMin_le_mem hx
  calc listMin l * l.length = l.length • listMin l := by
        rw [nsmul_eq_mul]; ring
    _ ≤ l.sum := hsum

theorem mean_le_listMax {l : List ℚ} (h : l ≠ []) : mean l ≤ listMax l := by
  have hlen : 0 < (l.length : ℚ) := by
    have := List.length_pos.mpr h
    exact_mod_cast this
  unfold mean
  rw [div_le_iff₀ hlen]
  have hsum : l.sum ≤ l.length • listMax l :=
    List.sum_le_card_nsmul l (listMax l) fun x hx => mem_le_listMax hx
  calc l.sum ≤ l.length • listMax l := hsum
    _ = listMax l * l.length := by rw [nsmul_eq_mul]; ring

theorem getLast?_drop_of_lt {l : List SignFXMetrics} {k : ℕ}
    (hk : k < l.length) : (l.drop k).getLast? = l.getLast? := by
  conv_rhs => rw [← List.take_append_drop k l]
  rw [List.getLast?_append_of_ne_nil]
  apply List.ne_nil_of_length_pos
  rw [List.length_drop]
  omega

/-- C4: `get_metrics_summary` returns the no-data result exactly when the
store is empty; on a non-empty store it considers only the most recent
`min (hist.length) 100` records, over which the reported minimum, mean and
maximum quality scores are correctly ordered; the reported total equals the
current store length, and the reported current quality score and last-updated
timestamp are those of the most recent record. -/
theorem metrics_summary_spec (hist : List SignFXMetrics) :
    (get_metrics_summary hist = none ↔ hist = []) ∧
      (∀ s, get_metrics_summary hist = some s →
        s.recent_measurements = min hist.length 100 ∧
        s.average_quality_score =
          mean ((hist.drop (hist.length - 100)).map SignFXMetrics.quality_score) ∧
        s.min_quality_score ≤ s.average_quality_score ∧
        s.average_quality_score ≤ s.max_quality_score ∧
        s.total_measurements = hist.length ∧
        (∀ m, hist.getLast? = some m →
          s.current_quality_score = m.quality_score ∧
          s.last_updated = some m.timestamp)) := by
  cases hist with
  | nil =>
      refine ⟨by simp [get_metrics_summary], ?_⟩
      intro s hs
      simp [get_metrics_summary] at hs
  | cons a t =>
      have hne : (a :: t) ≠ ([] : List SignFXMetrics) := by simp
      have hcons : ¬((a :: t) = ([] : List SignFXMetrics)) := hne
      constructor
      · simp [get_metrics_summary]
      · intro s hs
        have hdroplt : (a :: t).length - 100 < (a :: t).length := by
          simp only [List.length_cons]
          omega
        have hrec_ne : (a :: t).drop ((a :: t).length - 100) ≠ [] := by
          apply List.ne_nil_of_length_pos
          rw [List.length_drop]
          omega
        have hmap_ne :
            ((a :: t).drop ((a :: t).length - 100)).map
              SignFXMetrics.quality_score ≠ [] := by
          simpa using hrec_ne
        have hs' : s = {
            total_measurements := (a :: t).length
            recent_measurements :=
              ((a :: t).drop ((a :: t).length - 100)).length
            current_quality_score :=
              ((((a :: t).drop ((a :: t).length - 100)).getLast?).map
                SignFXMetrics.quality_score).getD 0
            average_quality_score :=
              mean (((a :: t).drop ((a :: t).length - 100)).map
                SignFXMetrics.quality_score)
            min_quality_score :=
              listMin (((a :: t).drop ((a :: t).length - 100)).map
                SignFXMetrics.quality_score)
            max_quality_score :=
              listMax (((a :: t).drop ((a :: t).length - 100)).map
                SignFXMetrics.quality_score)
            average_snr :=
              mean (((a :: t).drop ((a :: t).length - 100)).map
                SignFXMetrics.signal_to_noise_ratio)
            average_latency :=
              mean (((a :: t).drop ((a :: t).length - 100)).map
                SignFXMetrics.latency)
            average_throughput :=
              mean (((a :: t).drop ((a :: t).length - 100)).map
                SignFXMetrics.throughput)
            average_error_rate :=
              mean (((a :: t).drop ((a :: t).length - 100)).map
                SignFXMetrics.error_rate)
            last_updated :=
              (((a :: t).drop ((a :: t).length - 100)).getLast?).map
                SignFXMetrics.timestamp } := by
          simp only [get_metrics_summary, List.isEmpty_cons,
            Bool.false_eq_true, if_false, Option.some.injEq] at hs
          exact hs.symm
        subst hs'
        refine ⟨?_, rfl, listMin_le_mean hmap_ne, mean_le_listMax hmap_ne, rfl, ?_⟩
        · show ((a :: t).drop ((a :: t).length - 100)).length =
            min (a :: t).length 100
          rw [List.length_drop]
          simp only [List.length_cons]
          omega
        · intro m hm
          rw [getLast?_drop_of_lt hdroplt, hm]
          exact ⟨rfl, rfl⟩

/-- The summary of the one-element store `[zeroSample]`. -/
def zeroSummary : MetricsSummary := ⟨1, 1, 0, 0, 0, 0, 0, 0, 0, 0, some 0⟩

/-- Witness for C4: the summary of the concrete one-element store
`[zeroSample]` satisfies every reported property of the claim. -/
theorem metrics_summary_spec_witness :
    zeroSummary.recent_measurements =
        min ([zeroSample] : List SignFXMetrics).length 100 ∧
      zeroSummary.average_quality_score =
        mean ((([zeroSample] : List SignFXMetrics).drop
          (([zeroSample] : List SignFXMetrics).length - 100)).map
            SignFXMetrics.quality_score) ∧
      zeroSummary.min_quality_score ≤ zeroSummary.average_quality_score ∧
      zeroSummary.average_quality_score ≤ zeroSummary.max_quality_score ∧
      zeroSummary.total_measurements =
        ([zeroSample] : List SignFXMetrics).length ∧
      zeroSummary.current_quality_score = zeroSample.quality_score ∧
      zeroSummary.last_updated = some zeroSample.timestamp := by
  have h := (metrics_summary_spec [zeroSample]).2 zeroSummary
    (by norm_num [get_metrics_summary, zeroSummary, zeroSample, mean,
      listMin, listMax])
  have hlast := h.2.2.2.2.2 zeroSample (by simp)
  exact ⟨h.1, h.2.1, h.2.2.1, h.2.2.2.1, h.2.2.2.2.1, hlast.1, hlast.2⟩

/-- The finite branch of `calculate_snr`:
`20 * math.log10(signal_strength / noise_level)`. -/
noncomputable def snr_db (signal_strength noise_level : ℝ) : ℝ :=
  20 * Real.logb 10 (signal_strength / noise_level)

/-- Mirror of `SignFXMetricsCalculator.calculate_snr`
(src/mcp_signfx_tool.py lines 57-61) over the reals: `some ⊤` models the
special-cased `float(inf)` when the noise level is zero; `none` models the
`ValueError: math domain error` that `math.log10` raises on a nonpositive
argument and which propagates to the caller. -/
noncomputable def calculate_snr (signal_strength noise_level : ℝ) :
    Option EReal :=
  if noise_level = 0 then some ⊤
  else if signal_strength / noise_level ≤ 0 then none
  else some ((snr_db signal_strength noise_level : ℝ) : EReal)

/-- C5: for every signal strength, `calculate_snr` at noise level zero returns
positive infinity and never fails: the division-by-zero case is special-cased
to the infinity sentinel rather than an error. -/
theorem snr_zero_noise_is_top (signal_strength : ℝ) :
    calculate_snr signal_strength 0 = some ⊤ := by
  unfold calculate_snr
  simp

theorem calculate_snr_pos {s n : ℝ} (hs : 0 < s) (hn : 0 < n) :
    calculate_snr s n = some ((snr_db s n : ℝ) : EReal) := by
  unfold calculate_snr
  rw [if_neg (ne_of_gt hn), if_neg (not_le.mpr (div_pos hs hn))]

/-- C6: for a fixed positive noise level, the SNR is monotonically increasing
in the signal strength; for a fixed positive signal strength, it is
monotonically decreasing in the noise level; in both regimes `calculate_snr`
returns the finite value `20 * log10(signal / noise)`. -/
theorem snr_monotone :
    (∀ n s₁ s₂ : ℝ, 0 < n → 0 < s₁ → s₁ ≤ s₂ →
      calculate_snr s₁ n = some ((snr_db s₁ n : ℝ) : EReal) ∧
        calculate_snr s₂ n = some ((snr_db s₂ n : ℝ) : EReal) ∧
        snr_db s₁ n ≤ snr_db s₂ n) ∧
      (∀ s n₁ n₂ : ℝ, 0 < s → 0 < n₁ → n₁ ≤ n₂ →
        calculate_snr s n₁ = some ((snr_db s n₁ : ℝ) : EReal) ∧
          calculate_snr s n₂ = some ((snr_db s n₂ : ℝ) : EReal) ∧
          snr_db s n₂ ≤ snr_db s n₁) := by
  constructor
  · intro n s₁ s₂ hn hs₁ hs₂
    have hs₂' : 0 < s₂ := lt_of_lt_of_le hs₁ hs₂
    refine ⟨calculate_snr_pos hs₁ hn, calculate_snr_pos hs₂' hn, ?_⟩
    unfold snr_db
    have hdiv : s₁ / n ≤ s₂ / n := by gcongr
    have hpos : 0 < s₁ / n := div_pos hs₁ hn
    have := Real.logb_le_logb_of_le (by norm_num : (1:ℝ) < 10) hpos hdiv
    linarith
  · intro s n₁ n₂ hs hn₁ hn₂
    have hn₂' : 0 < n₂ := lt_of_lt_of_le hn₁ hn₂
    refine ⟨calculate_snr_pos hs hn₁, calculate_snr_pos hs hn₂', ?_⟩
    unfold snr_db
    have hdiv : s / n₂ ≤ s / n₁ := by gcongr
    have hpos : 0 < s / n₂ := div_pos hs hn₂'
    have := Real.logb_le_logb_of_le (by norm_num : (1:ℝ) < 10) hpos hdiv
    linarith

/-- Witness for C6: monotonicity applied at noise 1 and signals 1 ≤ 10, and at
signal 1 and noises 1 ≤ 10. -/
theorem snr_monotone_witness :
    (calculate_snr 1 1 = some ((snr_db 1 1 : ℝ) : EReal) ∧
      calculate_snr 10 1 = some ((snr_db 10 1 : ℝ) : EReal) ∧
      snr_db 1 1 ≤ snr_db 10 1) ∧
      (calculate_snr 1 1 = some ((snr_db 1 1 : ℝ) : EReal) ∧
        calculate_snr 1 10 = some ((snr_db 1 10 : ℝ) : EReal) ∧
        snr_db 1 10 ≤ snr_db 1 1) :=
  ⟨snr_monotone.1 1 1 10 (by norm_num) (by norm_num) (by norm_num),
   snr_monotone.2 1 1 10 (by norm_num) (by norm_num) (by norm_num)⟩

/-- C10: for a positive noise level, `calculate_snr` returns a value if and
only if the signal strength is positive; on a nonpositive signal the
logarithm argument is nonpositive and the call fails (the math domain error
propagates; no sentinel value is substituted). -/
theorem snr_domain_error (s n : ℝ) (hn : 0 < n) :
    ((calculate_snr s n).isSome = true ↔ 0 < s) ∧
      (s ≤ 0 → calculate_snr s n = none) := by
  have hn' : n ≠ 0 := ne_of_gt hn
  constructor
  · constructor
    · intro h
      by_contra hs
      push_neg at hs
      have hdiv : s / n ≤ 0 := div_nonpos_iff.mpr (Or.inr ⟨hs, le_of_lt hn⟩)
      unfold calculate_snr at h
      rw [if_neg hn', if_pos hdiv] at h
      simp at h
    · intro hs
      rw [calculate_snr_pos hs hn]
      rfl
  · intro hs
    have hdiv : s / n ≤ 0 := div_nonpos_iff.mpr (Or.inr ⟨hs, le_of_lt hn⟩)
    unfold calculate_snr
    rw [if_neg hn', if_pos hdiv]

/-- Witness for C10: at noise level 1, the SNR of signal 1 is defined and the
SNR of signal -1 is the propagated domain error. -/
theorem snr_domain_error_witness :
    ((calculate_snr 1 1).isSome = true ↔ (0:ℝ) < 1) ∧
      (calculate_snr (-1) 1 = none) :=
  ⟨(snr_domain_error 1 1 (by norm_num)).1,
   (snr_domain_error (-1) 1 (by norm_num)).2 (by norm_num)⟩

/-- Random draws of one loop iteration in `simulate_signfx_data`
(src/mcp_signfx_tool.py lines 361-372).  The nine `random.uniform` values are
opaque inputs of the embedding; `snr` stands for the value
`calculate_snr(signal_strength, noise_level)` computed from the draw (a real
logarithm, irrelevant to the timestamp/ingestion claims and therefore carried
as part of the opaque draw). -/
structure SimDraw where
  signal_strength : ℚ
  noise_level : ℚ
  frequency : ℚ
  amplitude : ℚ
  phase : ℚ
  distortion : ℚ
  latency : ℚ
  throughput : ℚ
  error_rate : ℚ
  snr : ℚ

/-- The record generated at loop index `i` by `simulate_signfx_data`
(src/mcp_signfx_tool.py lines 375-388): `clock i` is the value of
`datetime.now()` at iteration `i` (in seconds), and the timestamp is backdated
by `10 * i` seconds (`timedelta(seconds=i*10)`). -/
def simRecord (clock : ℕ → ℚ) (draw : ℕ → SimDraw) (i : ℕ) : SignFXMetrics :=
  { timestamp := clock i - 10 * (i : ℚ)
    signal_strength := (draw i).signal_strength
    noise_level := (draw i).noise_level
    signal_to_noise_ratio := (draw i).snr
    frequency := (draw i).frequency
    amplitude := (draw i).amplitude
    phase := (draw i).phase
    distortion := (draw i).distortion
    latency := (draw i).latency
    throughput := (draw i).throughput
    error_rate := (draw i).error_rate
    quality_score := 0 }

/-- Mirror of `simulate_signfx_data` (src/mcp_signfx_tool.py lines 348-400):
generate `num_samples` records and push each through
`metrics_calculator.add_metrics`, the same ingest path as real data. -/
def simulate_signfx_data (clock : ℕ → ℚ) (draw : ℕ → SimDraw)
    (num_samples : ℕ) (hist : List SignFXMetrics) : List SignFXMetrics :=
  ((List.range num_samples).map (simRecord clock draw)).foldl add_metrics hist

theorem clock_spread (clock : ℕ → ℚ)
    (h : ∀ k, clock (k + 1) - clock k < 10) :
    ∀ i j, i < j → clock j - clock i < 10 * ((j : ℚ) - (i : ℚ)) := by
  intro i j hij
  induction j with
  | zero => omega
  | succ j ih =>
      rcases Nat.lt_succ_iff_lt_or_eq.mp hij with h1 | h1
      · have h2 := ih h1
        have hk := h j
        push_cast
        push_cast at h2
        linarith
      · subst h1
        have hk := h i
        push_cast
        linarith

/-- C8: the simulator generates exactly `num_samples` records, ingests them
through the same `add_metrics` path as real data, backdates the record at
index `i` by `10 * i` seconds from the now of that iteration, and consequently
the generated timestamps are strictly decreasing in the index whenever the
clock advances by less than 10 seconds between consecutive samples. -/
theorem simulate_backdates_samples (clock : ℕ → ℚ) (draw : ℕ → SimDraw)
    (num_samples : ℕ) (hist : List SignFXMetrics) :
    ((List.range num_samples).map (simRecord clock draw)).length =
        num_samples ∧
      simulate_signfx_data clock draw num_samples hist =
        ((List.range num_samples).map (simRecord clock draw)).foldl
          add_metrics hist ∧
      (∀ i, (simRecord clock draw i).timestamp = clock i - 10 * (i : ℚ)) ∧
      ((∀ k, clock (k + 1) - clock k < 10) →
        ∀ i j, i < j →
          (simRecord clock draw j).timestamp <
            (simRecord clock draw i).timestamp) := by
  refine ⟨by simp, rfl, fun i => rfl, ?_⟩
  intro hclock i j hij
  show clock j - 10 * (j : ℚ) < clock i - 10 * (i : ℚ)
  have := clock_spread clock hclock i j hij
  linarith

/-- A constant clock, used to instantiate the simulator claims. -/
def constClock : ℕ → ℚ := fun _ => 0

/-- A constant draw with every sampled value equal to 1. -/
def unitDraw : ℕ → SimDraw := fun _ => ⟨1, 1, 1, 1, 1, 1, 1, 1, 1, 1⟩

/-- Witness for C8: with a constant clock (which advances by 0 < 10 seconds
between samples) the sample at index 1 is strictly older than the sample at
index 0, and 5 requested samples yield exactly 5 records. -/
theorem simulate_backdates_samples_witness :
    ((List.range 5).map (simRecord constClock unitDraw)).length = 5 ∧
      (simRecord constClock unitDraw 1).timestamp <
        (simRecord constClock unitDraw 0).timestamp :=
  ⟨(simulate_backdates_samples constClock unitDraw 5 []).1,
   (simulate_backdates_samples constClock unitDraw 5 []).2.2.2
     (fun k => by norm_num [constClock]) 0 1 (by norm_num)⟩

/-- The argument map of the `add_signfx_metrics` operation: each field is
present or omitted. -/
structure AddArgs where
  signal_strength : Option ℚ
  noise_level : Option ℚ
  frequency : Option ℚ
  amplitude : Option ℚ
  phase : Option ℚ
  distortion : Option ℚ
  latency : Option ℚ
  throughput : Option ℚ
  error_rate : Option ℚ

/-- Mirror of the `add_signfx_metrics` dispatcher operation
(src/mcp_signfx_tool.py lines 235-297): `arguments.get(key, default)` becomes
`Option.getD`; the record is built with the SNR derived from the (defaulted)
signal strength and noise level, ingested via `add_metrics`, and the operation
reports the created record with its stamped quality score.  The SNR
computation itself is the real-valued `calculate_snr`; it enters this
rational-valued record as the opaque parameter `snrFn`. -/
def add_signfx_metrics (snrFn : ℚ → ℚ → ℚ) (now : ℚ) (args : AddArgs)
    (hist : List SignFXMetrics) : SignFXMetrics × List SignFXMetrics :=
  let signal_strength := args.signal_strength.getD 0
  let noise_level := args.noise_level.getD 0
  let frequency := args.frequency.getD 1000
  let amplitude := args.amplitude.getD 1
  let phase := args.phase.getD 0
  let distortion := args.distortion.getD 0
  let latency := args.latency.getD 0
  let throughput := args.throughput.getD 0
  let error_rate := args.error_rate.getD 0
  let m : SignFXMetrics :=
    { timestamp := now
      signal_strength := signal_strength
      noise_level := noise_level
      signal_to_noise_ratio := snrFn signal_strength noise_level
      frequency := frequency
      amplitude := amplitude
      phase := phase
      distortion := distortion
      latency := latency
      throughput := throughput
      error_rate := error_rate
      quality_score := 0 }
  (stamp m, add_metrics hist m)

/-- C9: in the `add_signfx_metrics` dispatcher operation, the optional fields
phase, distortion, latency, throughput and error rate each default to 0 when
omitted, amplitude defaults to 1 when omitted, and the returned record carries
the derived SNR of the (defaulted) signal strength and noise level together
with a quality score consistent with its own fields. -/
theorem add_dispatcher_defaults (snrFn : ℚ → ℚ → ℚ) (now : ℚ)
    (args : AddArgs) (hist : List SignFXMetrics) :
    (args.phase = none →
        (add_signfx_metrics snrFn now args hist).1.phase = 0) ∧
      (args.distortion = none →
        (add_signfx_metrics snrFn now args hist).1.distortion = 0) ∧
      (args.latency = none →
        (add_signfx_metrics snrFn now args hist).1.latency = 0) ∧
      (args.throughput = none →
        (add_signfx_metrics snrFn now args hist).1.throughput = 0) ∧
      (args.error_rate = none →
        (add_signfx_metrics snrFn now args hist).1.error_rate = 0) ∧
      (args.amplitude = none →
        (add_signfx_metrics snrFn now args hist).1.amplitude = 1) ∧
      (add_signfx_metrics snrFn now args hist).1.signal_to_noise_ratio =
        snrFn (args.signal_strength.getD 0) (args.noise_level.getD 0) ∧
      (add_signfx_metrics snrFn now args hist).1.quality_score =
        calculate_quality_score (add_signfx_metrics snrFn now args hist).1 := by
  refine ⟨fun h => ?_, fun h => ?_, fun h => ?_, fun h => ?_, fun h => ?_,
    fun h => ?_, rfl, rfl⟩ <;>
    simp [add_signfx_metrics, stamp, h]

/-- A concrete argument map that supplies only the required fields signal
strength, noise level and frequency, omitting everything else. -/
def requiredOnlyArgs : AddArgs :=
  ⟨some 2, some 1, some 1000, none, none, none, none, none, none⟩

/-- A concrete stand-in for the SNR computation. -/
def constSnr : ℚ → ℚ → ℚ := fun _ _ => 7

/-- Witness for C9: with every optional field omitted, the created record has
phase, distortion, latency, throughput and error rate 0, amplitude 1, and the
derived SNR of its defaulted inputs. -/
theorem add_dispatcher_defaults_witness :
    (add_signfx_metrics constSnr 0 requiredOnlyArgs []).1.phase = 0 ∧
      (add_signfx_metrics constSnr 0 requiredOnlyArgs []).1.distortion = 0 ∧
      (add_signfx_metrics constSnr 0 requiredOnlyArgs []).1.latency = 0 ∧
      (add_signfx_metrics constSnr 0 requiredOnlyArgs []).1.throughput = 0 ∧
      (add_signfx_metrics constSnr 0 requiredOnlyArgs []).1.error_rate = 0 ∧
      (add_signfx_metrics constSnr 0 requiredOnlyArgs []).1.amplitude = 1 ∧
      (add_signfx_metrics constSnr 0 requiredOnlyArgs []).1.signal_to_noise_ratio =
        constSnr (requiredOnlyArgs.signal_strength.getD 0)
          (requiredOnlyArgs.noise_level.getD 0) := by
  have h := add_dispatcher_defaults constSnr 0 requiredOnlyArgs []
  exact ⟨h.1 rfl, h.2.1 rfl, h.2.2.1 rfl, h.2.2.2.1 rfl, h.2.2.2.2.1 rfl,
    h.2.2.2.2.2.1 rfl, h.2.2.2.2.2.2.1⟩

end SignFX
